import Mathlib

/-!
Shallow embedding of the BestBuy order service (src/server.js).

The service is a single Express app over MongoDB with four routes; the
core is the place-order workflow of `app.post "/api/orders"`.  We embed
the data model (the mongoose schemas) and the route handlers as pure
Lean functions over an explicit state.  Conventions of the embedding:

* Mongo documents become structures; an ObjectId is modelled as a `Nat`.
* JS numbers (prices, stock, quantities) are modelled as `Rat`: the
  schemas declare them as `Number`, which carries no integrality
  constraint.  The concrete values in all claims are exactly
  representable, so float rounding plays no role.
* A field that may be absent from a JSON body is an `Option`.
  `ReqItem.productId = none` models an absent/falsy productId (real ids
  are nonempty ObjectId strings) and `ReqItem.quantity = none` an absent
  quantity; a present quantity of `0` is rejected by the `quantity <= 0`
  test exactly as the JS falsiness test would reject it.
* Fallible external calls are modelled by explicit oracles: `decFails`
  gives, per stock-decrement invocation, whether `Product.updateOne`
  rejects; `senderReady` is whether the service-bus sender was
  initialized (`sbSender` non-null) and `sendFails` whether
  `sendMessages` rejects.  A rejected `await` inside the handler's
  `try` block transfers control to its `catch`, which answers 500.
* `new Date()` timestamps are an abstract `now : Nat` argument.
-/

namespace OrderService

/-- A document of the `products` collection (`productSchema`):
name, price and stock; `id` is the `_id`. The optional `category`
field is never read by this service and is omitted. -/
structure Product where
  id : Nat
  name : String
  price : Rat
  stock : Rat
deriving DecidableEq, Repr

/-- One entry of the request body's `items` array, as read by the
destructuring `const { productId, quantity } = item`. -/
structure ReqItem where
  productId : Option Nat
  quantity : Option Rat
deriving DecidableEq, Repr

/-- An embedded order line (`orderItemSchema`): the product reference
plus the name and price snapshotted from the catalog. -/
structure OrderLine where
  productId : Nat
  name : String
  price : Rat
  quantity : Rat
deriving DecidableEq, Repr

/-- An order document (`orderSchema`); `createdAt`/`updatedAt` come from
`timestamps: true`. -/
structure Order where
  id : Nat
  status : String
  items : List OrderLine
  totalAmount : Rat
  createdAt : Nat
  updatedAt : Nat
deriving DecidableEq, Repr

/-- The request body of `POST /api/orders`.  The handler destructures
only `items`; the other fields model whatever else a client may send
(`status`, `totalAmount`, `customerEmail`, ...). `items = none` models a
body whose `items` is absent or not an array. -/
structure ReqBody where
  items : Option (List ReqItem)
  status : Option String
  totalAmount : Option Rat
  customerEmail : Option String
deriving DecidableEq, Repr

/-- The mutable database state: the `products` collection and the
`orders` collection; `nextId` models Mongo's fresh `_id` generation. -/
structure State where
  catalog : List Product
  orders : List Order
  nextId : Nat
deriving DecidableEq, Repr

/-- The HTTP responses the handlers produce. -/
inductive Response where
  | created (order : Order)
  | ok (order : Order)
  | badRequest (msg : String)
  | notFound (msg : String)
  | serverError (msg : String)
deriving DecidableEq, Repr

/-- The three validation failures of the place-order loop. -/
inductive PlaceErr where
  | invalidEntry
  | productNotFound (pid : Nat)
  | insufficientStock (name : String)
deriving DecidableEq, Repr

/-- The 400 message each validation failure is reported with. -/
def errMsg : PlaceErr → String
  | PlaceErr.invalidEntry => "Each item needs productId and positive quantity."
  | PlaceErr.productNotFound pid => "Product not found: " ++ toString pid
  | PlaceErr.insufficientStock name => "Not enough stock for product: " ++ name

/-- `Product.findById(productId)`: first catalog document with that id. -/
def findProduct (catalog : List Product) (pid : Nat) : Option Product :=
  catalog.find? (fun p => p.id == pid)

/-- One iteration of the validation loop body of `app.post "/api/orders"`:
the falsy/positivity test on `productId` and `quantity`, the
`Product.findById` lookup, and the `product.stock < quantity` check.
Returns the resolved product and quantity on success. -/
def checkItem (catalog : List Product) (it : ReqItem) : Except PlaceErr (Product × Rat) :=
  match it.productId with
  | none => Except.error PlaceErr.invalidEntry
  | some pid =>
    match it.quantity with
    | none => Except.error PlaceErr.invalidEntry
    | some q =>
      if q ≤ 0 then Except.error PlaceErr.invalidEntry
      else
        match findProduct catalog pid with
        | none => Except.error (PlaceErr.productNotFound pid)
        | some product =>
          if product.stock < q then Except.error (PlaceErr.insufficientStock product.name)
          else Except.ok (product, q)

/-- The whole `for (const item of items)` validation loop: left-to-right,
returning at the first failing entry, otherwise accumulating the
`orderItems` array (with `name`/`price` snapshotted from the resolved
product) and the running `totalAmount`. -/
def validateItems (catalog : List Product) : List ReqItem → Except PlaceErr (List OrderLine × Rat)
  | [] => Except.ok ([], 0)
  | it :: rest =>
    match checkItem catalog it with
    | Except.error e => Except.error e
    | Except.ok (product, q) =>
      match validateItems catalog rest with
      | Except.error e => Except.error e
      | Except.ok (lines, total) =>
        Except.ok
          ({ productId := product.id, name := product.name
             , price := product.price, quantity := q } :: lines,
           product.price * q + total)

/-- Mongoose document validation run by `newOrder.save()`: the order
schema requires a non-empty `items` array, and each `orderItemSchema`
entry requires `quantity ≥ 1` (`min: 1`) and a non-empty `name`
(`required` on a `String` rejects the empty string).  A failing
validation makes `save` reject, landing in the handler's `catch`. -/
def orderValid (o : Order) : Bool :=
  !o.items.isEmpty &&
    o.items.all (fun l => decide (1 ≤ l.quantity) && decide (l.name ≠ ""))

/-- `Product.updateOne({_id}, {$inc: {stock: -quantity}})`: decrement the
stock of the first catalog document with the given id. -/
def decStock : List Product → Nat → Rat → List Product
  | [], _, _ => []
  | p :: ps, pid, q =>
    if p.id == pid then { p with stock := p.stock - q } :: ps
    else p :: decStock ps pid q

/-- The stock-decrement loop after `save`: one `updateOne` per order
line, sequentially, in line order.  `decFails` says, per invocation,
whether the awaited call rejects; a rejection aborts the loop before
applying that decrement (second component `false`). -/
def runDecrements : List OrderLine → List Bool → List Product → List Product × Bool
  | [], _, catalog => (catalog, true)
  | line :: rest, decFails, catalog =>
    if decFails.headD false then (catalog, false)
    else runDecrements rest (decFails.drop 1) (decStock catalog line.productId line.quantity)

/-- The payload built by `sendOrderCreatedMessage`.  An order document
has no `customerEmail` path, so `order.customerEmail || null` is `null`,
modelled as `none`. -/
structure Payload where
  orderId : Nat
  customerEmail : Option String
  items : List OrderLine
  totalAmount : Rat
  status : String
  createdAt : Nat
deriving DecidableEq, Repr

/-- What a call of `sendOrderCreatedMessage` amounts to. -/
inductive PublishOutcome where
  | skipped
  | sent (payload : Payload)
  | failedLogged (msg : String)
deriving DecidableEq, Repr

def mkPayload (o : Order) : Payload :=
  { orderId := o.id, customerEmail := none, items := o.items
    , totalAmount := o.totalAmount, status := o.status, createdAt := o.createdAt }

/-- The `try` block of `sendOrderCreatedMessage`: skip when the sender
was never initialized, otherwise send; a rejected `sendMessages` is the
`Except.error` case. -/
def trySendBody (senderReady sendFails : Bool) (o : Order) : Except String PublishOutcome :=
  if !senderReady then Except.ok PublishOutcome.skipped
  else if sendFails then Except.error "send failure"
  else Except.ok (PublishOutcome.sent (mkPayload o))

/-- `sendOrderCreatedMessage(order)`: its `catch` turns any send failure
into a logged message; the function never rethrows. -/
def sendOrderCreatedMessage (senderReady sendFails : Bool) (o : Order) : PublishOutcome :=
  match trySendBody senderReady sendFails o with
  | Except.ok out => out
  | Except.error m => PublishOutcome.failedLogged m

/-- The handler of `app.post "/api/orders"`.  Returns the response, the
database state afterwards, and what became of the OrderCreated publish
(`none` when `sendOrderCreatedMessage` was never reached).  The
decrement loop sits inside the handler's `try`, so a rejected
`updateOne` reaches the `catch` and answers 500 — after `save` has
already persisted the order and earlier decrements have been applied. -/
def placeOrder (s : State) (now : Nat) (senderReady sendFails : Bool)
    (decFails : List Bool) (body : ReqBody) : Response × State × Option PublishOutcome :=
  match body.items with
  | none => (Response.badRequest "Order must contain at least one item.", s, none)
  | some items =>
    if items.isEmpty then
      (Response.badRequest "Order must contain at least one item.", s, none)
    else
      match validateItems s.catalog items with
      | Except.error e => (Response.badRequest (errMsg e), s, none)
      | Except.ok (lines, total) =>
        let newOrder : Order :=
          { id := s.nextId, status := "PENDING", items := lines
            , totalAmount := total, createdAt := now, updatedAt := now }
        if orderValid newOrder then
          let pub := sendOrderCreatedMessage senderReady sendFails newOrder
          let s1 : State :=
            { s with orders := s.orders ++ [newOrder], nextId := s.nextId + 1 }
          match runDecrements newOrder.items decFails s1.catalog with
          | (catalog2, true) =>
            (Response.created newOrder, { s1 with catalog := catalog2 }, some pub)
          | (catalog2, false) =>
            (Response.serverError "Failed to create order.",
             { s1 with catalog := catalog2 }, some pub)
        else (Response.serverError "Failed to create order.", s, none)

/-- The allowed statuses of `app.patch "/api/orders/:id"`. -/
def allowedStatuses : List String := ["PENDING", "COMPLETED", "CANCELLED"]

/-- `Order.findByIdAndUpdate(id, {status}, {new: true})` with
`timestamps: true`: update status and `updatedAt` of the first order
with that id, returning the updated document. -/
def setStatusFirst : List Order → Nat → String → Nat → List Order × Option Order
  | [], _, _, _ => ([], none)
  | o :: os, oid, st, now =>
    if o.id == oid then
      ({ o with status := st, updatedAt := now } :: os,
       some { o with status := st, updatedAt := now })
    else
      let r := setStatusFirst os oid st now
      (o :: r.1, r.2)

/-- The handler of `app.patch "/api/orders/:id"`: the status is
falsiness-checked and matched (uppercased) against the allowed list
before any lookup; only then is the order looked up and updated. -/
def updateStatus (s : State) (now : Nat) (oid : Nat) (status : Option String) :
    Response × State :=
  match status with
  | none =>
    (Response.badRequest "Invalid status. Allowed values: PENDING, COMPLETED, CANCELLED.", s)
  | some st =>
    if !(allowedStatuses.contains st.toUpper) then
      (Response.badRequest "Invalid status. Allowed values: PENDING, COMPLETED, CANCELLED.", s)
    else
      match setStatusFirst s.orders oid st.toUpper now with
      | (_, none) => (Response.notFound "Order not found.", s)
      | (orders2, some o2) => (Response.ok o2, { s with orders := orders2 })

/-- `Order.findById(id)`. -/
def findOrder (orders : List Order) (oid : Nat) : Option Order :=
  orders.find? (fun o => o.id == oid)

/-- Specification-side relation: the produced order lines correspond
one-to-one, in order, to the requested items, each snapshotting the
name and price of the catalog product its `productId` resolves to. -/
def snapLines (catalog : List Product) : List ReqItem → List OrderLine → Prop
  | [], [] => True
  | it :: its, l :: ls =>
    it.productId = some l.productId ∧ it.quantity = some l.quantity ∧
    (findProduct catalog l.productId).map Product.name = some l.name ∧
    (findProduct catalog l.productId).map Product.price = some l.price ∧
    snapLines catalog its ls
  | _, _ => False

/-- Specification-side: the sum of price × quantity over a line list. -/
def lineSum (lines : List OrderLine) : Rat :=
  (lines.map (fun l => l.price * l.quantity)).sum

lemma findProduct_id {catalog : List Product} {pid : Nat} {p : Product}
    (h : findProduct catalog pid = some p) : p.id = pid := by
  simpa using List.find?_some h

lemma checkItem_ok {catalog : List Product} {it : ReqItem} {product : Product} {q : Rat}
    (h : checkItem catalog it = Except.ok (product, q)) :
    it.productId = some product.id ∧ it.quantity = some q ∧ 0 < q ∧
      findProduct catalog product.id = some product ∧ q ≤ product.stock := by
  unfold checkItem at h
  rcases hpid : it.productId with _ | pid
  · rw [hpid] at h; simp at h
  rw [hpid] at h
  rcases hq : it.quantity with _ | q0
  · rw [hq] at h; simp at h
  rw [hq] at h
  dsimp only at h
  by_cases hq0 : q0 ≤ 0
  · simp [hq0] at h
  rw [if_neg hq0] at h
  rcases hf : findProduct catalog pid with _ | prod
  · rw [hf] at h; simp at h
  rw [hf] at h
  dsimp only at h
  by_cases hs : prod.stock < q0
  · simp [hs] at h
  rw [if_neg hs] at h
  simp only [Except.ok.injEq, Prod.mk.injEq] at h
  obtain ⟨h1, h2⟩ := h
  subst h1; subst h2
  have hid := findProduct_id hf
  subst hid
  exact ⟨rfl, rfl, not_le.mp hq0, hf, not_lt.mp hs⟩

lemma checkItem_ok_of {catalog : List Product} {it : ReqItem} {pid : Nat} {q : Rat}
    {p : Product} (hpid : it.productId = some pid) (hq : it.quantity = some q)
    (h0 : 0 < q) (hf : findProduct catalog pid = some p) (hs : q ≤ p.stock) :
    checkItem catalog it = Except.ok (p, q) := by
  unfold checkItem
  rw [hpid, hq]
  dsimp only
  rw [if_neg (not_le.mpr h0), hf]
  dsimp only
  rw [if_neg (not_lt.mpr hs)]

lemma validateItems_ok {catalog : List Product} :
    ∀ {its : List ReqItem} {lines : List OrderLine} {total : Rat},
      validateItems catalog its = Except.ok (lines, total) →
      total = lineSum lines ∧ snapLines catalog its lines ∧
        ∀ l ∈ lines, ∃ p, findProduct catalog l.productId = some p ∧ l.quantity ≤ p.stock := by
  intro its
  induction its with
  | nil =>
    intro lines total h
    simp only [validateItems, Except.ok.injEq, Prod.mk.injEq] at h
    obtain ⟨h1, h2⟩ := h
    subst h1; subst h2
    simp [lineSum, snapLines]
  | cons it rest ih =>
    intro lines total h
    simp only [validateItems] at h
    rcases hc : checkItem catalog it with e | ⟨product, q⟩
    · rw [hc] at h; simp at h
    rw [hc] at h
    rcases hv : validateItems catalog rest with e | ⟨lines0, total0⟩
    · rw [hv] at h; simp at h
    rw [hv] at h
    simp only [Except.ok.injEq, Prod.mk.injEq] at h
    obtain ⟨h1, h2⟩ := h
    subst h1; subst h2
    obtain ⟨ht0, hsnap0, havail0⟩ := ih hv
    obtain ⟨hp1, hp2, hp3, hp4, hp5⟩ := checkItem_ok hc
    refine ⟨?_, ?_, ?_⟩
    · simp [lineSum, ht0]
    · exact ⟨hp1, hp2, by simp [hp4], by simp [hp4], hsnap0⟩
    · intro l hl
      rcases List.mem_cons.mp hl with hl | hl
      · subst hl; exact ⟨product, hp4, hp5⟩
      · exact havail0 l hl

lemma placeOrder_created {s : State} {now : Nat} {sr sf : Bool} {df : List Bool}
    {body : ReqBody} {o : Order} {s' : State} {po : Option PublishOutcome}
    (h : placeOrder s now sr sf df body = (Response.created o, s', po)) :
    ∃ its lines total,
      body.items = some its ∧ its ≠ [] ∧
      validateItems s.catalog its = Except.ok (lines, total) ∧
      o = ⟨s.nextId, "PENDING", lines, total, now, now⟩ ∧
      orderValid o = true ∧
      runDecrements lines df s.catalog = (s'.catalog, true) ∧
      s'.orders = s.orders ++ [o] ∧ s'.nextId = s.nextId + 1 ∧
      po = some (sendOrderCreatedMessage sr sf o) := by
  unfold placeOrder at h
  rcases hb : body.items with _ | its
  · rw [hb] at h; simp at h
  rw [hb] at h
  dsimp only at h
  cases he : its.isEmpty with
  | true => rw [he] at h; simp at h
  | false =>
  rw [he] at h
  rw [if_neg Bool.false_ne_true] at h
  rcases hv : validateItems s.catalog its with e | ⟨lines, total⟩
  · rw [hv] at h; simp at h
  rw [hv] at h
  dsimp only at h
  cases ho : orderValid ⟨s.nextId, "PENDING", lines, total, now, now⟩ with
  | false => rw [ho] at h; simp at h
  | true =>
  rw [ho] at h
  rw [if_pos rfl] at h
  rcases hr : runDecrements lines df s.catalog with ⟨cat2, b⟩
  rw [hr] at h
  cases b with
  | false => simp at h
  | true =>
  simp only [Prod.mk.injEq, Response.created.injEq] at h
  obtain ⟨h1, h2, h3⟩ := h
  refine ⟨its, lines, total, rfl, by simpa using he, hv, h1.symm, ?_, ?_, ?_, ?_, ?_⟩
  · rw [← h1]; exact ho
  · rw [← h2]; exact hr
  · rw [← h2, ← h1]
  · rw [← h2]
  · rw [← h3, ← h1]

/-- C1: for every item sequence that passes validation, the created
order's `totalAmount` is the sum over its lines of price × quantity, and
the lines pair up one-to-one with the submitted items, each carrying the
name and price of the catalog product resolved at submission time. -/
theorem C1_total_and_snapshot {s : State} {now : Nat} {sr sf : Bool} {df : List Bool}
    {body : ReqBody} {o : Order} {s' : State} {po : Option PublishOutcome}
    (h : placeOrder s now sr sf df body = (Response.created o, s', po)) :
    o.totalAmount = lineSum o.items ∧
      ∃ its, body.items = some its ∧ snapLines s.catalog its o.items := by
  obtain ⟨its, lines, total, hb, -, hv, ho, -⟩ := placeOrder_created h
  obtain ⟨ht, hsnap, -⟩ := validateItems_ok hv
  subst ho
  exact ⟨ht, its, hb, hsnap⟩

lemma validateItems_error_of_prefix {catalog : List Product} :
    ∀ (pre : List ReqItem) {bad : ReqItem} {post : List ReqItem} {e : PlaceErr},
      (∀ x ∈ pre, ∃ pq, checkItem catalog x = Except.ok pq) →
      checkItem catalog bad = Except.error e →
      validateItems catalog (pre ++ bad :: post) = Except.error e := by
  intro pre
  induction pre with
  | nil =>
    intro bad post e _ hbad
    simp only [List.nil_append, validateItems]
    rw [hbad]
  | cons x xs ih =>
    intro bad post e hok hbad
    obtain ⟨⟨p, q⟩, hx⟩ := hok x (List.mem_cons_self x xs)
    simp only [List.cons_append, validateItems]
    rw [hx]
    dsimp only
    rw [List.append_eq, ih (fun y hy => hok y (List.mem_cons_of_mem x hy)) hbad]

/-- C2: an absent/non-array or empty `items` is answered 400 before any
entry is examined; otherwise entries are processed left-to-right and the
request fails on the first invalid entry with that entry's specific
error (bad quantity/productId, product not found, or insufficient
stock), regardless of everything after it — no error accumulation. -/
theorem C2_validation_fail_fast (s : State) (now : Nat) (sr sf : Bool)
    (df : List Bool) (body : ReqBody) :
    ((body.items = none ∨ body.items = some []) →
      placeOrder s now sr sf df body
        = (Response.badRequest "Order must contain at least one item.", s, none)) ∧
    (∀ (pre : List ReqItem) (bad : ReqItem) (post : List ReqItem) (e : PlaceErr),
      body.items = some (pre ++ bad :: post) →
      (∀ x ∈ pre, ∃ pq, checkItem s.catalog x = Except.ok pq) →
      checkItem s.catalog bad = Except.error e →
      placeOrder s now sr sf df body = (Response.badRequest (errMsg e), s, none)) := by
  constructor
  · rintro (hb | hb)
    · rw [placeOrder, hb]
    · rw [placeOrder, hb]
      rfl
  · intro pre bad post e hb hok hbad
    rw [placeOrder, hb]
    dsimp only
    rw [if_neg (by simp), validateItems_error_of_prefix pre hok hbad]

/-- C3: whenever place-order answers 400 (empty list, bad entry, unknown
product, or insufficient stock), the database state is untouched: no
order is persisted and no stock is decremented. -/
theorem C3_no_change_on_bad_request {s : State} {now : Nat} {sr sf : Bool}
    {df : List Bool} {body : ReqBody} {msg : String} {s' : State}
    {po : Option PublishOutcome}
    (h : placeOrder s now sr sf df body = (Response.badRequest msg, s', po)) :
    s' = s := by
  unfold placeOrder at h
  rcases hb : body.items with _ | its
  · rw [hb] at h
    exact (congrArg (fun t => t.2.1) h).symm
  rw [hb] at h
  dsimp only at h
  by_cases he : its.isEmpty = true
  · rw [if_pos he] at h
    exact (congrArg (fun t => t.2.1) h).symm
  rw [if_neg he] at h
  rcases hv : validateItems s.catalog its with e | ⟨lines, total⟩
  · rw [hv] at h
    dsimp only at h
    exact (congrArg (fun t => t.2.1) h).symm
  rw [hv] at h
  dsimp only at h
  cases ho : orderValid ⟨s.nextId, "PENDING", lines, total, now, now⟩ with
  | false => rw [ho] at h; simp at h
  | true =>
  rw [ho] at h
  rw [if_pos rfl] at h
  rcases hr : runDecrements lines df s.catalog with ⟨cat2, b⟩
  rw [hr] at h
  cases b <;> simp at h

lemma findProduct_decStock_ne {cat : List Product} {pid : Nat} {q : Rat} {pid' : Nat}
    (h : pid' ≠ pid) :
    findProduct (decStock cat pid q) pid' = findProduct cat pid' := by
  induction cat with
  | nil => rfl
  | cons p ps ih =>
    unfold decStock
    by_cases hp : (p.id == pid) = true
    · rw [if_pos hp]
      have hpid : p.id = pid := by simpa using hp
      have hne : (p.id == pid') = false := by
        simp [hpid]; exact fun hc => h hc.symm
      unfold findProduct
      simp only [List.find?, hne]
    · rw [if_neg hp]
      unfold findProduct
      by_cases hpp : (p.id == pid') = true
      · simp only [List.find?, hpp]
      · have hppf : (p.id == pid') = false := by simpa using hpp
        simp only [List.find?, hppf]
        exact ih

lemma decStock_mem_nonneg {cat : List Product} {pid : Nat} {q : Rat}
    (hpos : ∀ p ∈ cat, 0 ≤ p.stock)
    (havail : ∀ p, findProduct cat pid = some p → q ≤ p.stock) :
    ∀ p' ∈ decStock cat pid q, 0 ≤ p'.stock := by
  induction cat with
  | nil => intro p' h'; simp [decStock] at h'
  | cons p ps ih =>
    intro p' hmem
    unfold decStock at hmem
    by_cases hp : (p.id == pid) = true
    · rw [if_pos hp] at hmem
      rcases List.mem_cons.mp hmem with hEq | hmem2
      · subst hEq
        have hfind : findProduct (p :: ps) pid = some p := by
          unfold findProduct; simp only [List.find?, hp]
        have hq := havail p hfind
        exact sub_nonneg.mpr hq
      · exact hpos p' (List.mem_cons_of_mem p hmem2)
    · rw [if_neg hp] at hmem
      rcases List.mem_cons.mp hmem with hEq | hmem2
      · rw [hEq]; exact hpos p (List.mem_cons_self p ps)
      · refine ih (fun x hx => hpos x (List.mem_cons_of_mem p hx)) ?_ p' hmem2
        intro p0 hp0
        apply havail
        unfold findProduct
        have hpf : (p.id == pid) = false := by simpa using hp
        simp only [List.find?, hpf]
        exact hp0

lemma runDecrements_nonneg :
    ∀ (lines : List OrderLine) (df : List Bool) (cat : List Product),
      (∀ p ∈ cat, 0 ≤ p.stock) →
      (∀ l ∈ lines, ∃ p, findProduct cat l.productId = some p ∧ l.quantity ≤ p.stock) →
      (lines.map OrderLine.productId).Nodup →
      ∀ p' ∈ (runDecrements lines df cat).1, 0 ≤ p'.stock := by
  intro lines
  induction lines with
  | nil =>
    intro df cat hpos _ _ p' h'
    simp only [runDecrements] at h'
    exact hpos p' h'
  | cons l rest ih =>
    intro df cat hpos havail hnd p' hmem
    unfold runDecrements at hmem
    obtain ⟨p0, hp0, hq0⟩ := havail l (List.mem_cons_self l rest)
    have hnd2 : (∀ x ∈ rest, x.productId ≠ l.productId) ∧
        (rest.map OrderLine.productId).Nodup := by simpa using hnd
    by_cases hf : (df.headD false) = true
    · rw [if_pos hf] at hmem; exact hpos p' hmem
    · rw [if_neg hf] at hmem
      have hpos2 : ∀ p ∈ decStock cat l.productId l.quantity, 0 ≤ p.stock := by
        refine decStock_mem_nonneg hpos ?_
        intro p hp
        rw [hp0] at hp
        cases hp
        exact hq0
      have havail2 : ∀ l' ∈ rest,
          ∃ p, findProduct (decStock cat l.productId l.quantity) l'.productId = some p ∧
            l'.quantity ≤ p.stock := by
        intro l' hl'
        obtain ⟨p1, hp1, hq1⟩ := havail l' (List.mem_cons_of_mem l hl')
        have hne : l'.productId ≠ l.productId := hnd2.1 l' hl'
        exact ⟨p1, by rw [findProduct_decStock_ne hne]; exact hp1, hq1⟩
      exact ih (df.drop 1) _ hpos2 havail2 hnd2.2 p' hmem

/-- C4 fails on the code: one request whose two lines reference the same
product passes validation (each line is checked against the same
pre-decrement stock), is created with 201, and its decrements drive the
stock from 5 to −1 — no concurrency involved. -/
theorem C4_counterexample :
    (placeOrder ⟨[⟨1, "Widget", 10, 5⟩], [], 0⟩ 0 false false []
        ⟨some [⟨some 1, some 3⟩, ⟨some 1, some 3⟩], none, none, none⟩).1
      = Response.created ⟨0, "PENDING", [⟨1, "Widget", 10, 3⟩, ⟨1, "Widget", 10, 3⟩], 60, 0, 0⟩ ∧
    ∃ p ∈ (placeOrder ⟨[⟨1, "Widget", 10, 5⟩], [], 0⟩ 0 false false []
        ⟨some [⟨some 1, some 3⟩, ⟨some 1, some 3⟩], none, none, none⟩).2.1.catalog,
      p.stock < 0 := by
  have hEval : placeOrder ⟨[⟨1, "Widget", 10, 5⟩], [], 0⟩ 0 false false []
      ⟨some [⟨some 1, some 3⟩, ⟨some 1, some 3⟩], none, none, none⟩
      = (Response.created ⟨0, "PENDING", [⟨1, "Widget", 10, 3⟩, ⟨1, "Widget", 10, 3⟩], 60, 0, 0⟩,
         ⟨[⟨1, "Widget", 10, -1⟩],
          [⟨0, "PENDING", [⟨1, "Widget", 10, 3⟩, ⟨1, "Widget", 10, 3⟩], 60, 0, 0⟩], 1⟩,
         some PublishOutcome.skipped) := by
    norm_num [placeOrder, validateItems, checkItem, findProduct, orderValid,
      runDecrements, decStock, sendOrderCreatedMessage, trySendBody, List.find?,
      List.all, List.isEmpty]
    decide
  constructor
  · rw [hEval]
  · refine ⟨⟨1, "Widget", 10, -1⟩, ?_, by norm_num⟩
    rw [hEval]
    simp

/-- C4 amended: absent concurrency, a successful place-order whose lines
reference pairwise-distinct products keeps every stock nonnegative
(each distinct product is decremented once, by a quantity its stock
check admitted); with repeated product ids in one request the guarantee
fails, as the counterexample shows. -/
theorem C4_amended_stock_nonneg {s : State} {now : Nat} {sr sf : Bool} {df : List Bool}
    {body : ReqBody} {o : Order} {s' : State} {po : Option PublishOutcome}
    (h : placeOrder s now sr sf df body = (Response.created o, s', po))
    (hpos : ∀ p ∈ s.catalog, 0 ≤ p.stock)
    (hnd : (o.items.map OrderLine.productId).Nodup) :
    ∀ p ∈ s'.catalog, 0 ≤ p.stock := by
  obtain ⟨its, lines, total, hb, hne, hv, ho, hov, hr, -, -, -⟩ := placeOrder_created h
  obtain ⟨-, -, havail⟩ := validateItems_ok hv
  have hlines : o.items = lines := by rw [ho]
  intro p hp
  refine runDecrements_nonneg lines df s.catalog hpos havail ?_ p ?_
  · rwa [hlines] at hnd
  · rw [hr]; exact hp

lemma findProduct_decStock_self {cat : List Product} {pid : Nat} {q : Rat} {p : Product}
    (h : findProduct cat pid = some p) :
    findProduct (decStock cat pid q) pid = some { p with stock := p.stock - q } := by
  induction cat with
  | nil => simp [findProduct, List.find?] at h
  | cons x xs ih =>
    unfold decStock
    by_cases hx : (x.id == pid) = true
    · rw [if_pos hx]
      unfold findProduct at h ⊢
      simp only [List.find?, hx] at h ⊢
      obtain hxp := Option.some.inj h
      subst hxp
      rfl
    · rw [if_neg hx]
      have hxf : (x.id == pid) = false := by simpa using hx
      unfold findProduct at h ⊢
      simp only [List.find?, hxf] at h ⊢
      exact ih h

/-- C5: a single-line order of quantity `q` against a product whose
stock suffices yields 201 with a PENDING order of totalAmount
price × q, and the product's stock afterwards is its prior stock minus
`q` (the claim's scenario price 10.00, stock 5, quantity 3 is the
witness). -/
theorem C5_single_line_decrement {s : State} {now : Nat} {sr sf : Bool} {body : ReqBody}
    {pid : Nat} {q : Rat} {p : Product}
    (hb : body.items = some [⟨some pid, some q⟩])
    (hf : findProduct s.catalog pid = some p)
    (h1 : 1 ≤ q) (hs : q ≤ p.stock) (hn : p.name ≠ "") :
    placeOrder s now sr sf [] body
      = (Response.created
           ⟨s.nextId, "PENDING", [⟨p.id, p.name, p.price, q⟩], p.price * q + 0, now, now⟩,
         ⟨decStock s.catalog p.id q,
          s.orders ++ [⟨s.nextId, "PENDING", [⟨p.id, p.name, p.price, q⟩], p.price * q + 0, now, now⟩],
          s.nextId + 1⟩,
         some (sendOrderCreatedMessage sr sf
           ⟨s.nextId, "PENDING", [⟨p.id, p.name, p.price, q⟩], p.price * q + 0, now, now⟩)) ∧
      findProduct (decStock s.catalog p.id q) p.id = some { p with stock := p.stock - q } := by
  have hid : p.id = pid := findProduct_id hf
  have hq0 : (0 : Rat) < q := lt_of_lt_of_le one_pos h1
  have hchk : checkItem s.catalog ⟨some pid, some q⟩ = Except.ok (p, q) :=
    checkItem_ok_of rfl rfl hq0 hf hs
  have hval : validateItems s.catalog [⟨some pid, some q⟩]
      = Except.ok ([⟨p.id, p.name, p.price, q⟩], p.price * q + 0) := by
    simp only [validateItems]
    rw [hchk]
  constructor
  · rw [placeOrder, hb]
    dsimp only
    rw [if_neg (by simp)]
    rw [hval]
    dsimp only
    have hov : orderValid
        ⟨s.nextId, "PENDING", [⟨p.id, p.name, p.price, q⟩], p.price * q + 0, now, now⟩ = true := by
      simp [orderValid, h1, hn]
    rw [hov, if_pos rfl]
    rfl
  · have h2 := findProduct_decStock_self (q := q) hf
    rw [hid] at h2
    rw [hid]
    exact h2

/-- C5 witness: the spec's concrete scenario — catalog holds product 1
with price 10 and stock 5; ordering quantity 3 answers 201 with
totalAmount 30 and status PENDING, and the stock becomes 2. -/
theorem C5_witness :
    placeOrder ⟨[⟨1, "P", 10, 5⟩], [], 0⟩ 7 false false []
        ⟨some [⟨some 1, some 3⟩], none, none, none⟩
      = (Response.created ⟨0, "PENDING", [⟨1, "P", 10, 3⟩], 30, 7, 7⟩,
         ⟨[⟨1, "P", 10, 2⟩], [⟨0, "PENDING", [⟨1, "P", 10, 3⟩], 30, 7, 7⟩], 1⟩,
         some PublishOutcome.skipped) ∧
      findProduct [⟨1, "P", 10, 2⟩] 1 = some ⟨1, "P", 10, 2⟩ := by
  have h := @C5_single_line_decrement ⟨[⟨1, "P", 10, 5⟩], [], 0⟩ 7 false false
    ⟨some [⟨some 1, some 3⟩], none, none, none⟩ 1 3 ⟨1, "P", 10, 5⟩
    rfl (by norm_num [findProduct, List.find?]) (by norm_num) (by norm_num) (by decide)
  constructor
  · rw [h.1]
    norm_num [decStock, sendOrderCreatedMessage, trySendBody]
  · norm_num [findProduct, List.find?]

/-- C6 fails on the code: the decrement loop runs inside the handler's
`try` before the 201 is sent, so a rejected `updateOne` lands in the
`catch` and the request is answered 500 — although the order stays
persisted (no rollback).  Here the first (only) decrement fails: the
order is in the store, yet the response is the generic 500, never a
201/created. -/
theorem C6_counterexample :
    (placeOrder ⟨[⟨1, "P", 10, 5⟩], [], 0⟩ 0 false false [true]
        ⟨some [⟨some 1, some 3⟩], none, none, none⟩).1
      = Response.serverError "Failed to create order." ∧
    (placeOrder ⟨[⟨1, "P", 10, 5⟩], [], 0⟩ 0 false false [true]
        ⟨some [⟨some 1, some 3⟩], none, none, none⟩).2.1.orders
      = [⟨0, "PENDING", [⟨1, "P", 10, 3⟩], 30, 0, 0⟩] ∧
    ∀ o : Order, Response.serverError "Failed to create order." ≠ Response.created o := by
  have hEval : placeOrder ⟨[⟨1, "P", 10, 5⟩], [], 0⟩ 0 false false [true]
      ⟨some [⟨some 1, some 3⟩], none, none, none⟩
      = (Response.serverError "Failed to create order.",
         ⟨[⟨1, "P", 10, 5⟩], [⟨0, "PENDING", [⟨1, "P", 10, 3⟩], 30, 0, 0⟩], 1⟩,
         some PublishOutcome.skipped) := by
    norm_num [placeOrder, validateItems, checkItem, findProduct, orderValid,
      runDecrements, sendOrderCreatedMessage, trySendBody, List.find?,
      List.all, List.isEmpty]
    decide
  exact ⟨by rw [hEval], by rw [hEval], fun o h' => Response.noConfusion h'⟩

/-- C6 amended: when a stock decrement fails after `save`, nothing is
rolled back — the order stays persisted and the decrements already
applied stay applied — but the request does not answer 201: the
handler's `catch` answers the generic 500. -/
theorem C6_amended_no_rollback {s : State} {now : Nat} {sr sf : Bool} {df : List Bool}
    {body : ReqBody} {its : List ReqItem} {lines : List OrderLine} {total : Rat}
    {cat2 : List Product}
    (hb : body.items = some its) (hne : its.isEmpty = false)
    (hv : validateItems s.catalog its = Except.ok (lines, total))
    (hov : orderValid ⟨s.nextId, "PENDING", lines, total, now, now⟩ = true)
    (hdec : runDecrements lines df s.catalog = (cat2, false)) :
    placeOrder s now sr sf df body
      = (Response.serverError "Failed to create order.",
         ⟨cat2, s.orders ++ [⟨s.nextId, "PENDING", lines, total, now, now⟩], s.nextId + 1⟩,
         some (sendOrderCreatedMessage sr sf ⟨s.nextId, "PENDING", lines, total, now, now⟩)) := by
  rw [placeOrder, hb]
  dsimp only
  rw [if_neg (by simp [hne])]
  rw [hv]
  dsimp only
  rw [hov, if_pos rfl]
  rw [hdec]

lemma setStatusFirst_not_found {os : List Order} {oid : Nat} (st : String) (now : Nat)
    (h : findOrder os oid = none) : setStatusFirst os oid st now = (os, none) := by
  induction os with
  | nil => rfl
  | cons o os ih =>
    by_cases ho : (o.id == oid) = true
    · unfold findOrder at h
      simp only [List.find?, ho] at h
      exact Option.noConfusion h
    · have hof : (o.id == oid) = false := by simpa using ho
      unfold findOrder at h
      simp only [List.find?, hof] at h
      unfold setStatusFirst
      rw [if_neg ho]
      dsimp only
      rw [ih h]

lemma setStatusFirst_found {os : List Order} {oid : Nat} {o : Order} (st : String) (now : Nat)
    (h : findOrder os oid = some o) :
    (setStatusFirst os oid st now).2 = some { o with status := st, updatedAt := now } ∧
    findOrder (setStatusFirst os oid st now).1 oid
      = some { o with status := st, updatedAt := now } := by
  induction os with
  | nil => simp [findOrder, List.find?] at h
  | cons x xs ih =>
    by_cases hx : (x.id == oid) = true
    · unfold findOrder at h
      simp only [List.find?, hx] at h
      obtain hxo := Option.some.inj h
      subst hxo
      unfold setStatusFirst
      rw [if_pos hx]
      exact ⟨rfl, by unfold findOrder; simp only [List.find?, hx]⟩
    · have hxf : (x.id == oid) = false := by simpa using hx
      unfold findOrder at h
      simp only [List.find?, hxf] at h
      obtain ⟨h2a, h2b⟩ := ih h
      unfold setStatusFirst
      rw [if_neg hx]
      dsimp only
      exact ⟨h2a, by unfold findOrder; simp only [List.find?, hxf]; exact h2b⟩

/-- C7 fails on the code in one corner: the handler checks the status
value before looking the order up, so an unresolved id together with an
invalid status is answered 400 (InvalidStatus), not 404 (NotFound) as
the claim's first clause demands. -/
theorem C7_counterexample :
    updateStatus ⟨[], [], 0⟩ 0 1 (some "BOGUS")
      = (Response.badRequest "Invalid status. Allowed values: PENDING, COMPLETED, CANCELLED.",
         ⟨[], [], 0⟩) ∧
    findOrder ([] : List Order) 1 = none ∧
    ∀ msg, Response.badRequest "Invalid status. Allowed values: PENDING, COMPLETED, CANCELLED."
        ≠ Response.notFound msg := by
  have hup : "BOGUS".toUpper = "BOGUS" := by
    show String.map Char.toUpper "BOGUS" = "BOGUS"
    rw [String.map_eq]; decide
  refine ⟨?_, rfl, fun msg h' => Response.noConfusion h'⟩
  rw [updateStatus, if_pos (by rw [hup]; decide)]

/-- C7 amended: an absent or unrecognized status (compared after
uppercasing) is answered 400 with the store untouched — this check runs
first, even when the id would not resolve; with a recognized status, an
unresolved id is answered 404 with the store untouched; otherwise the
uppercased status is stored unconditionally (whatever the current
status), `updatedAt` is set, and the updated record is returned and
visible to a subsequent lookup. -/
theorem C7_amended_update_status (s : State) (now : Nat) (oid : Nat) :
    (∀ st : Option String,
      (st = none ∨ ∃ stv, st = some stv ∧ allowedStatuses.contains stv.toUpper = false) →
      updateStatus s now oid st
        = (Response.badRequest
             "Invalid status. Allowed values: PENDING, COMPLETED, CANCELLED.", s)) ∧
    (∀ stv : String, allowedStatuses.contains stv.toUpper = true →
      findOrder s.orders oid = none →
      updateStatus s now oid (some stv) = (Response.notFound "Order not found.", s)) ∧
    (∀ (stv : String) (o : Order), allowedStatuses.contains stv.toUpper = true →
      findOrder s.orders oid = some o →
      ∃ s2, updateStatus s now oid (some stv)
          = (Response.ok { o with status := stv.toUpper, updatedAt := now }, s2) ∧
        findOrder s2.orders oid = some { o with status := stv.toUpper, updatedAt := now } ∧
        s2.catalog = s.catalog) := by
  refine ⟨?_, ?_, ?_⟩
  · rintro st (rfl | ⟨stv, rfl, hbad⟩)
    · rfl
    · rw [updateStatus]
      rw [if_pos (by simpa using hbad)]
  · intro stv hok hnone
    rw [updateStatus]
    rw [if_neg (by simpa using hok)]
    rw [setStatusFirst_not_found stv.toUpper now hnone]
  · intro stv o hok hfound
    obtain ⟨h2a, h2b⟩ := setStatusFirst_found stv.toUpper now hfound
    rcases hsf : setStatusFirst s.orders oid stv.toUpper now with ⟨orders2, r2⟩
    rw [hsf] at h2a h2b
    dsimp only at h2a h2b
    subst h2a
    refine ⟨{ s with orders := orders2 }, ?_, h2b, rfl⟩
    rw [updateStatus]
    rw [if_neg (by simpa using hok), hsf]

lemma placeOrder_resp_state_indep (s : State) (now : Nat) (df : List Bool)
    (body : ReqBody) (sr1 sf1 sr2 sf2 : Bool) :
    (placeOrder s now sr1 sf1 df body).1 = (placeOrder s now sr2 sf2 df body).1 ∧
    (placeOrder s now sr1 sf1 df body).2.1 = (placeOrder s now sr2 sf2 df body).2.1 := by
  simp only [placeOrder]
  rcases hb : body.items with _ | its
  · exact ⟨rfl, rfl⟩
  dsimp only
  by_cases he : its.isEmpty = true
  · rw [if_pos he, if_pos he]
    exact ⟨rfl, rfl⟩
  rw [if_neg he, if_neg he]
  rcases hv : validateItems s.catalog its with e | ⟨lines, total⟩
  · exact ⟨rfl, rfl⟩
  dsimp only
  cases ho : orderValid ⟨s.nextId, "PENDING", lines, total, now, now⟩ with
  | false =>
    rw [if_neg Bool.false_ne_true, if_neg Bool.false_ne_true]
    exact ⟨rfl, rfl⟩
  | true =>
    rw [if_pos rfl, if_pos rfl]
    rcases hr : runDecrements lines df s.catalog with ⟨cat2, b⟩
    cases b <;> exact ⟨rfl, rfl⟩

/-- C8: publishing OrderCreated is fire-and-forget — the response and
the database state of place-order do not depend on whether the sender is
configured or the send fails; an unconfigured sender makes every publish
a no-op (`skipped`); and a failing send is caught and merely logged,
never rethrown to the request. -/
theorem C8_publish_never_fails_request (s : State) (now : Nat) (df : List Bool)
    (body : ReqBody) (sr1 sf1 sr2 sf2 : Bool) (o : Order) :
    ((placeOrder s now sr1 sf1 df body).1 = (placeOrder s now sr2 sf2 df body).1 ∧
     (placeOrder s now sr1 sf1 df body).2.1 = (placeOrder s now sr2 sf2 df body).2.1) ∧
    sendOrderCreatedMessage false sf1 o = PublishOutcome.skipped ∧
    (∀ m, trySendBody sr1 sf1 o = Except.error m →
      sendOrderCreatedMessage sr1 sf1 o = PublishOutcome.failedLogged m) := by
  refine ⟨placeOrder_resp_state_indep s now df body sr1 sf1 sr2 sf2, rfl, ?_⟩
  intro m hm
  rw [sendOrderCreatedMessage, hm]

/-- C8 witness: with a configured sender whose send rejects, the error
is swallowed into a logged outcome; with no sender, publishing is a
no-op skip. -/
theorem C8_witness :
    sendOrderCreatedMessage true true ⟨0, "PENDING", [], 0, 0, 0⟩
        = PublishOutcome.failedLogged "send failure" ∧
    sendOrderCreatedMessage false true ⟨0, "PENDING", [], 0, 0, 0⟩
        = PublishOutcome.skipped := by
  have h1 := C8_publish_never_fails_request ⟨[], [], 0⟩ 0 [] ⟨none, none, none, none⟩
    true true false false ⟨0, "PENDING", [], 0, 0, 0⟩
  have h2 := C8_publish_never_fails_request ⟨[], [], 0⟩ 0 [] ⟨none, none, none, none⟩
    false true false false ⟨0, "PENDING", [], 0, 0, 0⟩
  exact ⟨h1.2.2 "send failure" rfl, h2.2.1⟩

lemma placeOrder_orders_inv (s : State) (now : Nat) (sr sf : Bool) (df : List Bool)
    (body : ReqBody) :
    (placeOrder s now sr sf df body).2.1.orders = s.orders ∨
    ∃ newOrder, orderValid newOrder = true ∧
      (placeOrder s now sr sf df body).2.1.orders = s.orders ++ [newOrder] := by
  simp only [placeOrder]
  rcases hb : body.items with _ | its
  · left; rfl
  dsimp only
  by_cases he : its.isEmpty = true
  · left; rw [if_pos he]
  rw [if_neg he]
  rcases hv : validateItems s.catalog its with e | ⟨lines, total⟩
  · left; rfl
  dsimp only
  cases ho : orderValid ⟨s.nextId, "PENDING", lines, total, now, now⟩ with
  | false =>
    left; rw [if_neg Bool.false_ne_true]
  | true =>
    rw [if_pos rfl]
    rcases hr : runDecrements lines df s.catalog with ⟨cat2, b⟩
    right
    refine ⟨⟨s.nextId, "PENDING", lines, total, now, now⟩, ho, ?_⟩
    cases b <;> rfl

/-- C9 amended: every order line persisted by place-order has quantity
at least 1 (the mongoose `min: 1` validator guards `save`); integrality
is not enforced anywhere, so fractional quantities such as 5/2 are
accepted and persisted, as the counterexample shows. -/
theorem C9_amended_quantity_ge_one {s : State} {now : Nat} {sr sf : Bool}
    {df : List Bool} {body : ReqBody} {o : Order}
    (h : o ∈ (placeOrder s now sr sf df body).2.1.orders) :
    o ∈ s.orders ∨ ∀ l ∈ o.items, 1 ≤ l.quantity := by
  rcases placeOrder_orders_inv s now sr sf df body with heq | ⟨newOrder, hval, heq⟩
  · left; rwa [heq] at h
  · rw [heq] at h
    rcases List.mem_append.mp h with h1 | h1
    · left; exact h1
    · right
      have ho : o = newOrder := by simpa using h1
      subst ho
      simp only [orderValid, Bool.and_eq_true, List.all_eq_true] at hval
      intro l hl
      have := hval.2 l hl
      simp only [Bool.and_eq_true, decide_eq_true_eq] at this
      exact this.1

/-- C9 fails on the code as stated: quantity 5/2 passes the handler's
`quantity <= 0` test and the schema's `min: 1` validator (`Number`
carries no integrality constraint), so an order line with the
non-integer quantity 5/2 is persisted. -/
theorem C9_counterexample :
    (placeOrder ⟨[⟨1, "Gadget", 10, 5⟩], [], 0⟩ 0 false false []
        ⟨some [⟨some 1, some (5/2)⟩], none, none, none⟩).2.1.orders
      = [⟨0, "PENDING", [⟨1, "Gadget", 10, 5/2⟩], 25, 0, 0⟩] ∧
    ((5 : Rat)/2).den ≠ 1 ∧ ∀ n : ℤ, ((5 : Rat)/2) ≠ (n : Rat) := by
  have hden : ((5 : Rat)/2).den = 2 := by norm_num [Rat.den]
  have hEval : placeOrder ⟨[⟨1, "Gadget", 10, 5⟩], [], 0⟩ 0 false false []
      ⟨some [⟨some 1, some (5/2)⟩], none, none, none⟩
      = (Response.created ⟨0, "PENDING", [⟨1, "Gadget", 10, 5/2⟩], 25, 0, 0⟩,
         ⟨[⟨1, "Gadget", 10, 5/2⟩],
          [⟨0, "PENDING", [⟨1, "Gadget", 10, 5/2⟩], 25, 0, 0⟩], 1⟩,
         some PublishOutcome.skipped) := by
    norm_num [placeOrder, validateItems, checkItem, findProduct, orderValid,
      runDecrements, decStock, sendOrderCreatedMessage, trySendBody, List.find?,
      List.all, List.isEmpty]
    decide
  refine ⟨?_, by rw [hden]; decide, ?_⟩
  · rw [hEval]
  · intro n hc
    have hd := congrArg Rat.den hc
    rw [hden, Rat.den_intCast] at hd
    exact (by decide : (2 : Nat) ≠ 1) hd

/-- C10: the place-order handler reads only `items` from the request
body — two bodies agreeing on `items` produce identical responses,
states, and publish outcomes, whatever `status`, `totalAmount`,
`customerEmail` or anything else the client sent — and every created
order is stored with status PENDING. -/
theorem C10_only_items_matter {s : State} {now : Nat} {sr sf : Bool} {df : List Bool}
    {b1 b2 : ReqBody} (h : b1.items = b2.items) :
    placeOrder s now sr sf df b1 = placeOrder s now sr sf df b2 ∧
    ∀ (o : Order) (s' : State) (po : Option PublishOutcome),
      placeOrder s now sr sf df b1 = (Response.created o, s', po) → o.status = "PENDING" := by
  constructor
  · rw [placeOrder, placeOrder, h]
  · intro o s' po hc
    obtain ⟨its, lines, total, hb, hne, hv, ho, -⟩ := placeOrder_created hc
    rw [ho]

/-- C1 witness: ordering 2 units of the catalog's 4-priced product 2
creates an order whose total is 8 and whose line snapshots the catalog
name and price. -/
theorem C1_witness :
    (placeOrder ⟨[⟨2, "Mouse", 4, 9⟩], [], 0⟩ 1 false false []
        ⟨some [⟨some 2, some 2⟩], none, none, none⟩
      = (Response.created ⟨0, "PENDING", [⟨2, "Mouse", 4, 2⟩], 8, 1, 1⟩,
         ⟨[⟨2, "Mouse", 4, 7⟩], [⟨0, "PENDING", [⟨2, "Mouse", 4, 2⟩], 8, 1, 1⟩], 1⟩,
         some PublishOutcome.skipped)) ∧
    ((⟨0, "PENDING", [⟨2, "Mouse", 4, 2⟩], 8, 1, 1⟩ : Order).totalAmount
        = lineSum (⟨0, "PENDING", [⟨2, "Mouse", 4, 2⟩], 8, 1, 1⟩ : Order).items ∧
      ∃ its, (⟨some [⟨some 2, some 2⟩], none, none, none⟩ : ReqBody).items = some its ∧
        snapLines [⟨2, "Mouse", 4, 9⟩] its
          (⟨0, "PENDING", [⟨2, "Mouse", 4, 2⟩], 8, 1, 1⟩ : Order).items) := by
  have hEval : placeOrder ⟨[⟨2, "Mouse", 4, 9⟩], [], 0⟩ 1 false false []
      ⟨some [⟨some 2, some 2⟩], none, none, none⟩
      = (Response.created ⟨0, "PENDING", [⟨2, "Mouse", 4, 2⟩], 8, 1, 1⟩,
         ⟨[⟨2, "Mouse", 4, 7⟩], [⟨0, "PENDING", [⟨2, "Mouse", 4, 2⟩], 8, 1, 1⟩], 1⟩,
         some PublishOutcome.skipped) := by
    norm_num [placeOrder, validateItems, checkItem, findProduct, orderValid,
      runDecrements, decStock, sendOrderCreatedMessage, trySendBody, List.find?,
      List.all, List.isEmpty]
    decide
  exact ⟨hEval, C1_total_and_snapshot hEval⟩

/-- C2 witness: with stock 5, the request [quantity 1; quantity 10;
quantity 1] fails on its second entry with the insufficient-stock
message, whatever follows it, leaving the state untouched. -/
theorem C2_witness :
    placeOrder ⟨[⟨1, "P", 10, 5⟩], [], 0⟩ 0 false false []
        ⟨some [⟨some 1, some 1⟩, ⟨some 1, some 10⟩, ⟨some 1, some 1⟩], none, none, none⟩
      = (Response.badRequest "Not enough stock for product: P",
         ⟨[⟨1, "P", 10, 5⟩], [], 0⟩, none) := by
  have h := (C2_validation_fail_fast ⟨[⟨1, "P", 10, 5⟩], [], 0⟩ 0 false false []
      ⟨some [⟨some 1, some 1⟩, ⟨some 1, some 10⟩, ⟨some 1, some 1⟩], none, none, none⟩).2
    [⟨some 1, some 1⟩] ⟨some 1, some 10⟩ [⟨some 1, some 1⟩]
    (PlaceErr.insufficientStock "P") rfl ?_ ?_
  · exact h
  · intro x hx
    have hx1 : x = (⟨some 1, some 1⟩ : ReqItem) := by simpa using hx
    subst hx1
    exact ⟨(⟨1, "P", 10, 5⟩, 1), by norm_num [checkItem, findProduct, List.find?]⟩
  · norm_num [checkItem, findProduct, List.find?]

/-- C3 witness: a request whose entry has quantity 0 is answered 400 and
the state afterwards is exactly the state before. -/
theorem C3_witness :
    (placeOrder ⟨[⟨1, "P", 10, 5⟩], [], 0⟩ 0 false false []
        ⟨some [⟨some 1, some 0⟩], none, none, none⟩
      = (Response.badRequest "Each item needs productId and positive quantity.",
         ⟨[⟨1, "P", 10, 5⟩], [], 0⟩, none)) ∧
    (⟨[⟨1, "P", 10, 5⟩], [], 0⟩ : State) = ⟨[⟨1, "P", 10, 5⟩], [], 0⟩ := by
  have hEval : placeOrder ⟨[⟨1, "P", 10, 5⟩], [], 0⟩ 0 false false []
      ⟨some [⟨some 1, some 0⟩], none, none, none⟩
      = (Response.badRequest "Each item needs productId and positive quantity.",
         ⟨[⟨1, "P", 10, 5⟩], [], 0⟩, none) := by
    norm_num [placeOrder, validateItems, checkItem, findProduct, errMsg,
      List.find?, List.isEmpty]
  exact ⟨hEval, C3_no_change_on_bad_request hEval⟩

/-- C4 witness: a successful order over two distinct products, each with
enough stock, leaves every stock nonnegative (2 and 0 here). -/
theorem C4_amended_witness :
    (placeOrder ⟨[⟨1, "A", 5, 4⟩, ⟨2, "B", 3, 2⟩], [], 0⟩ 0 false false []
        ⟨some [⟨some 1, some 2⟩, ⟨some 2, some 2⟩], none, none, none⟩
      = (Response.created ⟨0, "PENDING", [⟨1, "A", 5, 2⟩, ⟨2, "B", 3, 2⟩], 16, 0, 0⟩,
         ⟨[⟨1, "A", 5, 2⟩, ⟨2, "B", 3, 0⟩],
          [⟨0, "PENDING", [⟨1, "A", 5, 2⟩, ⟨2, "B", 3, 2⟩], 16, 0, 0⟩], 1⟩,
         some PublishOutcome.skipped)) ∧
    ∀ p ∈ ([⟨1, "A", 5, 2⟩, ⟨2, "B", 3, 0⟩] : List Product), 0 ≤ p.stock := by
  have hEval : placeOrder ⟨[⟨1, "A", 5, 4⟩, ⟨2, "B", 3, 2⟩], [], 0⟩ 0 false false []
      ⟨some [⟨some 1, some 2⟩, ⟨some 2, some 2⟩], none, none, none⟩
      = (Response.created ⟨0, "PENDING", [⟨1, "A", 5, 2⟩, ⟨2, "B", 3, 2⟩], 16, 0, 0⟩,
         ⟨[⟨1, "A", 5, 2⟩, ⟨2, "B", 3, 0⟩],
          [⟨0, "PENDING", [⟨1, "A", 5, 2⟩, ⟨2, "B", 3, 2⟩], 16, 0, 0⟩], 1⟩,
         some PublishOutcome.skipped) := by
    norm_num [placeOrder, validateItems, checkItem, findProduct, orderValid,
      runDecrements, decStock, sendOrderCreatedMessage, trySendBody, List.find?,
      List.all, List.isEmpty,
      show ((1 : Nat) == 2) = false from rfl, show ((2 : Nat) == 1) = false from rfl]
    decide
  refine ⟨hEval, ?_⟩
  have hpos : ∀ p ∈ ([⟨1, "A", 5, 4⟩, ⟨2, "B", 3, 2⟩] : List Product), 0 ≤ p.stock := by
    intro p hp
    rcases (by simpa using hp : p = (⟨1, "A", 5, 4⟩ : Product) ∨ p = ⟨2, "B", 3, 2⟩) with
      h' | h' <;> subst h' <;> norm_num
  exact C4_amended_stock_nonneg hEval hpos (by decide)

/-- C6 witness: single-line order, the one decrement call rejects: the
order is persisted, the catalog keeps its prior stock, and the response
is the generic 500. -/
theorem C6_amended_witness :
    placeOrder ⟨[⟨1, "P", 10, 5⟩], [], 0⟩ 0 false false [true]
        ⟨some [⟨some 1, some 2⟩], none, none, none⟩
      = (Response.serverError "Failed to create order.",
         ⟨[⟨1, "P", 10, 5⟩], [] ++ [⟨0, "PENDING", [⟨1, "P", 10, 2⟩], 20, 0, 0⟩], 1⟩,
         some PublishOutcome.skipped) := by
  have h := @C6_amended_no_rollback ⟨[⟨1, "P", 10, 5⟩], [], 0⟩ 0 false false [true]
    ⟨some [⟨some 1, some 2⟩], none, none, none⟩ [⟨some 1, some 2⟩]
    [⟨1, "P", 10, 2⟩] 20 [⟨1, "P", 10, 5⟩]
    rfl rfl
    (by norm_num [validateItems, checkItem, findProduct, List.find?])
    (by norm_num [orderValid]; decide)
    rfl
  exact h

/-- C7 witness: an unrecognized status is answered 400; a recognized
status sent in lower case is stored uppercased with `updatedAt` set,
whatever the order's current status, and a subsequent lookup sees it. -/
theorem C7_amended_witness :
    (updateStatus ⟨[], [], 0⟩ 3 1 (some "bogus")).1
        = Response.badRequest "Invalid status. Allowed values: PENDING, COMPLETED, CANCELLED." ∧
    ∃ s2, updateStatus ⟨[], [⟨5, "COMPLETED", [⟨1, "P", 2, 1⟩], 2, 0, 0⟩], 6⟩ 9 5 (some "pending")
        = (Response.ok ⟨5, "PENDING", [⟨1, "P", 2, 1⟩], 2, 0, 9⟩, s2) ∧
      findOrder s2.orders 5 = some ⟨5, "PENDING", [⟨1, "P", 2, 1⟩], 2, 0, 9⟩ ∧
      s2.catalog = [] := by
  have hupB : "bogus".toUpper = "BOGUS" := by
    show String.map Char.toUpper "bogus" = "BOGUS"
    rw [String.map_eq]; decide
  have hupP : "pending".toUpper = "PENDING" := by
    show String.map Char.toUpper "pending" = "PENDING"
    rw [String.map_eq]; decide
  constructor
  · have h1 := (C7_amended_update_status ⟨[], [], 0⟩ 3 1).1 (some "bogus")
      (Or.inr ⟨"bogus", rfl, by rw [hupB]; decide⟩)
    rw [h1]
  · obtain ⟨s2, hEq, hFind, hCat⟩ :=
      (C7_amended_update_status ⟨[], [⟨5, "COMPLETED", [⟨1, "P", 2, 1⟩], 2, 0, 0⟩], 6⟩ 9 5).2.2
        "pending" ⟨5, "COMPLETED", [⟨1, "P", 2, 1⟩], 2, 0, 0⟩ (by rw [hupP]; decide) rfl
    rw [hupP] at hEq hFind
    exact ⟨s2, hEq, hFind, hCat⟩

/-- C9 witness: a persisted 4-unit order line has quantity ≥ 1. -/
theorem C9_amended_witness :
    (⟨0, "PENDING", [⟨3, "Cable", 2, 4⟩], 8, 0, 0⟩ : Order)
        ∈ (placeOrder ⟨[⟨3, "Cable", 2, 7⟩], [], 0⟩ 0 false false []
            ⟨some [⟨some 3, some 4⟩], none, none, none⟩).2.1.orders ∧
    ((⟨0, "PENDING", [⟨3, "Cable", 2, 4⟩], 8, 0, 0⟩ : Order) ∈ ([] : List Order) ∨
      ∀ l ∈ (⟨0, "PENDING", [⟨3, "Cable", 2, 4⟩], 8, 0, 0⟩ : Order).items, 1 ≤ l.quantity) := by
  have hEval : placeOrder ⟨[⟨3, "Cable", 2, 7⟩], [], 0⟩ 0 false false []
      ⟨some [⟨some 3, some 4⟩], none, none, none⟩
      = (Response.created ⟨0, "PENDING", [⟨3, "Cable", 2, 4⟩], 8, 0, 0⟩,
         ⟨[⟨3, "Cable", 2, 3⟩], [⟨0, "PENDING", [⟨3, "Cable", 2, 4⟩], 8, 0, 0⟩], 1⟩,
         some PublishOutcome.skipped) := by
    norm_num [placeOrder, validateItems, checkItem, findProduct, orderValid,
      runDecrements, decStock, sendOrderCreatedMessage, trySendBody, List.find?,
      List.all, List.isEmpty]
    decide
  have hmem : (⟨0, "PENDING", [⟨3, "Cable", 2, 4⟩], 8, 0, 0⟩ : Order)
      ∈ (placeOrder ⟨[⟨3, "Cable", 2, 7⟩], [], 0⟩ 0 false false []
          ⟨some [⟨some 3, some 4⟩], none, none, none⟩).2.1.orders := by
    rw [hEval]
    exact List.mem_singleton.mpr rfl
  exact ⟨hmem, C9_amended_quantity_ge_one hmem⟩

/-- C10 witness: a body carrying a client-chosen status CANCELLED, a
bogus totalAmount and an email yields exactly the same result as the
body with only the items, and the stored status is PENDING. -/
theorem C10_witness :
    placeOrder ⟨[⟨1, "P", 10, 5⟩], [], 0⟩ 0 false false []
        ⟨some [⟨some 1, some 1⟩], some "CANCELLED", some 999, some "e@x"⟩
      = placeOrder ⟨[⟨1, "P", 10, 5⟩], [], 0⟩ 0 false false []
        ⟨some [⟨some 1, some 1⟩], none, none, none⟩ ∧
    placeOrder ⟨[⟨1, "P", 10, 5⟩], [], 0⟩ 0 false false []
        ⟨some [⟨some 1, some 1⟩], some "CANCELLED", some 999, some "e@x"⟩
      = (Response.created ⟨0, "PENDING", [⟨1, "P", 10, 1⟩], 10, 0, 0⟩,
         ⟨[⟨1, "P", 10, 4⟩], [⟨0, "PENDING", [⟨1, "P", 10, 1⟩], 10, 0, 0⟩], 1⟩,
         some PublishOutcome.skipped) ∧
    (⟨0, "PENDING", [⟨1, "P", 10, 1⟩], 10, 0, 0⟩ : Order).status = "PENDING" := by
  have h := @C10_only_items_matter ⟨[⟨1, "P", 10, 5⟩], [], 0⟩ 0 false false []
    ⟨some [⟨some 1, some 1⟩], some "CANCELLED", some 999, some "e@x"⟩
    ⟨some [⟨some 1, some 1⟩], none, none, none⟩ rfl
  have hEval : placeOrder ⟨[⟨1, "P", 10, 5⟩], [], 0⟩ 0 false false []
      ⟨some [⟨some 1, some 1⟩], some "CANCELLED", some 999, some "e@x"⟩
      = (Response.created ⟨0, "PENDING", [⟨1, "P", 10, 1⟩], 10, 0, 0⟩,
         ⟨[⟨1, "P", 10, 4⟩], [⟨0, "PENDING", [⟨1, "P", 10, 1⟩], 10, 0, 0⟩], 1⟩,
         some PublishOutcome.skipped) := by
    norm_num [placeOrder, validateItems, checkItem, findProduct, orderValid,
      runDecrements, decStock, sendOrderCreatedMessage, trySendBody, List.find?,
      List.all, List.isEmpty]
    decide
  exact ⟨h.1, hEval, h.2 _ _ _ hEval⟩

end OrderService
